import Mathlib

/- Shallow embedding of the SearchEngine repository.

`search_engine.py` is embedded as pure functions over association lists that
model Python dicts (insertion ordered, value overwritten in place on key
reuse).  `data_loader.py`'s paging fetcher is embedded as a fuel-indexed loop
over an abstract upstream: the upstream is a function from (skip, limit,
attempt number) to the outcome of that single HTTP request, so every sequence
of per-attempt responses is representable.  JSON values are modelled by
`JVal`; Python exceptions escaping a call are modelled by `Except.error`. -/

/-- JSON-like dynamic value, as produced by `resp.json()` and stored in
document fields.  Numbers are modelled as integers. -/
inductive JVal where
  | jstr (s : String)
  | jnum (n : Int)
  | jbool (b : Bool)
  | jnull
  | jarr (xs : List JVal)
  | jobj (fields : List (String × JVal))
deriving Repr

mutual

/-- Python `repr` of a value (string contents are not re-escaped; the claims
never exercise quotes inside strings). -/
def pyRepr : JVal → String
  | .jstr s => "'" ++ s ++ "'"
  | .jnum n => toString n
  | .jbool b => if b then "True" else "False"
  | .jnull => "None"
  | .jarr xs => "[" ++ ", ".intercalate (pyReprArr xs) ++ "]"
  | .jobj fs => "\x7b" ++ ", ".intercalate (pyReprObj fs) ++ "\x7d"

/-- Reprs of the elements of a JSON array. -/
def pyReprArr : List JVal → List String
  | [] => []
  | v :: vs => pyRepr v :: pyReprArr vs

/-- Reprs of the bindings of a JSON object. -/
def pyReprObj : List (String × JVal) → List String
  | [] => []
  | (k, v) :: rest => ("'" ++ k ++ "': " ++ pyRepr v) :: pyReprObj rest

end

/-- Python `str` of a value: a string is itself, everything else is its repr. -/
def pyStr : JVal → String
  | .jstr s => s
  | v => pyRepr v

/-- Python `str(x)` where `x` came from `dict.get` and may be `None`. -/
def pyStrOpt : Option JVal → String
  | none => "None"
  | some v => pyStr v

/-- A document: a Python dict from field name to value. -/
abbrev Doc := List (String × JVal)

/-- Python dict lookup on an association list (first binding wins; dicts from
JSON have unique keys). -/
def lookupA {α : Type} : List (String × α) → String → Option α
  | [], _ => none
  | (k, v) :: rest, key => if k = key then some v else lookupA rest key

/-- Python dict assignment `m[k] = v`: overwrite in place, else append. -/
def pyInsert {α : Type} : List (String × α) → String → α → List (String × α)
  | [], k, v => [(k, v)]
  | (k1, v1) :: rest, k, v =>
    if k1 = k then (k, v) :: rest else (k1, v1) :: pyInsert rest k v

/-- Field access `d.get(k)` / `k in d` on a document. -/
def getField (d : Doc) (k : String) : Option JVal := lookupA d k

/-- Python `str.lower`, character-wise (ASCII case mapping, which is what the
tokenizer and the substring scan observe on this corpus). -/
def pyLower (s : String) : String := String.mk (s.data.map Char.toLower)

/-- Python `str.strip()`: drop whitespace from both ends. -/
def pyStrip (s : String) : String :=
  String.mk (((s.data.dropWhile Char.isWhitespace).reverse.dropWhile
    Char.isWhitespace).reverse)

/-- Characters kept by the tokenizer regex `[^a-z0-9]+` (after lowering). -/
def isTokenChar (c : Char) : Bool := ('a' ≤ c && c ≤ 'z') || ('0' ≤ c && c ≤ '9')

/-- Split a character list into maximal runs of token characters, dropping
empty pieces; `acc` holds the current run reversed. -/
def splitRuns : List Char → List Char → List String
  | [], acc => if acc.isEmpty then [] else [String.mk acc.reverse]
  | c :: cs, acc =>
    if isTokenChar c then splitRuns cs (c :: acc)
    else if acc.isEmpty then splitRuns cs []
    else String.mk acc.reverse :: splitRuns cs []

/-- Embedding of `tokenize` in `search_engine.py`: lowercase, split on runs of
characters outside `[a-z0-9]`, drop empty tokens. -/
def tokenize (text : String) : List String :=
  if text = "" then [] else splitRuns (pyLower text).data []

/-- Engine state: inverted index (token to posting list of document ids, set
semantics) and document store (id to document), both insertion ordered. -/
structure SearchEngine where
  index : List (String × List String)
  docs : List (String × Doc)
deriving Repr

/-- Add a document id to a token's posting set, `self.index[token].add(id)`. -/
def indexAdd : List (String × List String) → String → String → List (String × List String)
  | [], tok, i => [(tok, [i])]
  | (t, ids) :: rest, tok, i =>
    if t = tok then (t, if i ∈ ids then ids else ids ++ [i]) :: rest
    else (t, ids) :: indexAdd rest tok i

/-- Index one document's tokens under its id. -/
def indexDoc (idx : List (String × List String)) (doc_id : String) (toks : List String) :
    List (String × List String) :=
  toks.foldl (fun i t => indexAdd i t doc_id) idx

/-- Resolve a document id: `id_field` if present, else the `_id` fallback,
else none (document skipped).  A present field always resolves, via `str`. -/
def resolveId (id_field : String) (d : Doc) : Option String :=
  match getField d id_field with
  | some v => some (pyStr v)
  | none =>
    match getField d "_id" with
    | some v => some (pyStr v)
    | none => none

/-- Concatenation of the document's string-valued fields, as indexed. -/
def docText (d : Doc) : String :=
  " ".intercalate ((d.map Prod.snd).filterMap fun v =>
    match v with
    | .jstr s => some s
    | _ => none)

/-- One iteration of the `for d in docs` loop in `build_index`. -/
def buildStep (id_field : String) (acc : SearchEngine) (d : Doc) : SearchEngine :=
  match resolveId id_field d with
  | none => acc
  | some doc_id =>
    { docs := pyInsert acc.docs doc_id d
      index := indexDoc acc.index doc_id (tokenize (docText d)) }

/-- State of the engine after `clear()` and processing the given documents. -/
def buildSteps (docs : List Doc) (id_field : String) : SearchEngine :=
  docs.foldl (buildStep id_field) ⟨[], []⟩

/-- Embedding of `SearchEngine.build_index`: the previous state is cleared
first, so the result ignores it. -/
def SearchEngine.build_index (_e : SearchEngine) (docs : List Doc)
    (id_field : String := "id") : SearchEngine :=
  buildSteps docs id_field

/-- Engine state observable when the `docs` iterable raised after yielding
`processed`: the old state was cleared, the prefix is already indexed. -/
def buildIndexInterrupted (_e : SearchEngine) (processed : List Doc)
    (id_field : String) : SearchEngine :=
  buildSteps processed id_field

/-- Posting set lookup `self.index.get(t, ())`. -/
def indexGet (e : SearchEngine) (t : String) : List String :=
  (lookupA e.index t).getD []

/-- Embedding of `SearchEngine._score`: number of query tokens (occurrences
counted) whose posting set has this document id. -/
def scoreOf (e : SearchEngine) (q_tokens : List String) (doc_id : String) : Nat :=
  (q_tokens.filter fun t => decide (doc_id ∈ indexGet e t)).length

/-- One hex digit of the UUID regex (case-insensitive). -/
def isHexChar (c : Char) : Bool :=
  ('0' ≤ c && c ≤ '9') || ('a' ≤ c && c ≤ 'f') || ('A' ≤ c && c ≤ 'F')

/-- Consume exactly `n` hex characters. -/
def hexRun : Nat → List Char → Option (List Char)
  | 0, cs => some cs
  | _ + 1, [] => none
  | n + 1, c :: cs => if isHexChar c then hexRun n cs else none

/-- Consume one dash. -/
def dashRun : List Char → Option (List Char)
  | '-' :: cs => some cs
  | _ => none

/-- Embedding of the anchored UUID regex 8-4-4-4-12. -/
def uuidMatch (s : String) : Bool :=
  (((((((((hexRun 8 s.data).bind dashRun).bind (hexRun 4)).bind dashRun).bind
    (hexRun 4)).bind dashRun).bind (hexRun 4)).bind dashRun).bind (hexRun 12))
    == some []

/-- Documents matched on the identifier path: exact equality of `str(d.get("id"))`
or `str(d.get("user_id"))` with the stripped query. -/
def uuidMatchesOf (e : SearchEngine) (q : String) : List Doc :=
  (e.docs.filter fun kv =>
    (pyStrOpt (getField kv.2 "id") == q) || (pyStrOpt (getField kv.2 "user_id") == q)).map
    Prod.snd

/-- Literal substring containment of `needle` in a character list. -/
def substrB (needle : List Char) : List Char → Bool
  | [] => needle.isEmpty
  | c :: cs => needle.isPrefixOf (c :: cs) || substrB needle cs

/-- The lowercased concatenation of string field values used by the substring
fallback scan. -/
def fallbackText (d : Doc) : String :=
  " ".intercalate ((d.map Prod.snd).filterMap fun v =>
    match v with
    | .jstr s => some (pyLower s)
    | _ => none)

/-- Candidate ids from the inverted index: union over the query tokens. -/
def candidate_union (e : SearchEngine) (toks : List String) : List String :=
  toks.foldl (fun acc t => acc ++ ((indexGet e t).filter fun i => decide (¬ i ∈ acc))) []

/-- Candidate ids of the substring fallback scan, in store order. -/
def fallback_candidates (e : SearchEngine) (query : String) : List String :=
  (e.docs.filter fun kv => substrB (pyLower query).data (fallbackText kv.2).data).map Prod.fst

/-- The candidate id list of the general query path. -/
def candidatesOf (e : SearchEngine) (query : String) : List String :=
  let u := candidate_union e (tokenize query)
  if u.isEmpty then fallback_candidates e query else u

/-- Scored candidates, `(self._score(q_tokens, cid), cid)`. -/
def scoredOf (e : SearchEngine) (query : String) : List (Nat × String) :=
  (candidatesOf e query).map fun cid => (scoreOf e (tokenize query) cid, cid)

/-- Python's sort key `(-score, cid)` as an order relation: score descending,
then id ascending. -/
def rankLE (a b : Nat × String) : Prop :=
  b.1 < a.1 ∨ (a.1 = b.1 ∧ a.2 ≤ b.2)

instance : DecidableRel rankLE := fun a b => by
  unfold rankLE; infer_instance

instance : IsTotal (Nat × String) rankLE := by
  constructor
  intro a b
  rcases Nat.lt_trichotomy a.1 b.1 with h | h | h
  · exact Or.inr (Or.inl h)
  · rcases le_total a.2 b.2 with h2 | h2
    · exact Or.inl (Or.inr ⟨h, h2⟩)
    · exact Or.inr (Or.inr ⟨h.symm, h2⟩)
  · exact Or.inl (Or.inl h)

instance : IsTrans (Nat × String) rankLE := by
  constructor
  intro a b c hab hbc
  rcases hab with h1 | ⟨e1, l1⟩
  · rcases hbc with h2 | ⟨e2, l2⟩
    · exact Or.inl (h2.trans h1)
    · exact Or.inl (e2 ▸ h1)
  · rcases hbc with h2 | ⟨e2, l2⟩
    · exact Or.inl (e1 ▸ h2)
    · exact Or.inr ⟨e1.trans e2, l1.trans l2⟩

/-- The ranked id list of the general query path. -/
def orderedIdsOf (e : SearchEngine) (query : String) : List String :=
  (List.insertionSort rankLE (scoredOf e query)).map Prod.snd

/-- The Python slice `l[(page-1)*page_size : (page-1)*page_size + page_size]`
(for `page ≥ 1`; the HTTP boundary rejects smaller pages). -/
def sliceL {α : Type} (l : List α) (page page_size : Nat) : List α :=
  (l.drop ((page - 1) * page_size)).take page_size

/-- Resolve ids through the store, `[self.docs[cid] for cid in ids]`; a missing
key is a KeyError. -/
def resolveDocs (e : SearchEngine) : List String → Except String (List Doc)
  | [] => .ok []
  | i :: rest =>
    match lookupA e.docs i with
    | none => .error "KeyError"
    | some d => (resolveDocs e rest).map (d :: ·)

/-- Embedding of `SearchEngine.search`.  Branches in source order: identifier
path, empty query, empty token list, then index union / substring fallback
with scoring and pagination. -/
def SearchEngine.search (e : SearchEngine) (query : String) (page : Nat)
    (page_size : Nat) : Except String (Nat × List Doc) :=
  if uuidMatch (pyStrip query) then
    let ms := uuidMatchesOf e (pyStrip query)
    .ok (ms.length, sliceL ms page page_size)
  else if query = "" then
    let all_ids := e.docs.map Prod.fst
    match resolveDocs e (sliceL all_ids page page_size) with
    | .ok rs => .ok (all_ids.length, rs)
    | .error m => .error m
  else
    let q_tokens := tokenize query
    if q_tokens.isEmpty then .ok (0, [])
    else
      let ordered_ids := orderedIdsOf e query
      match resolveDocs e (sliceL ordered_ids page page_size) with
      | .ok rs => .ok (ordered_ids.length, rs)
      | .error m => .error m

/-- The full ranked document sequence a query's pages are sliced from. -/
def rankedDocs (e : SearchEngine) (query : String) : Except String (List Doc) :=
  if uuidMatch (pyStrip query) then .ok (uuidMatchesOf e (pyStrip query))
  else if query = "" then resolveDocs e (e.docs.map Prod.fst)
  else if (tokenize query).isEmpty then .ok []
  else resolveDocs e (orderedIdsOf e query)

/-- Well-formedness of a published engine state: every id in a posting set is
a store key.  `build_index` establishes it. -/
def engineWF (e : SearchEngine) : Bool :=
  e.index.all fun p => p.2.all fun i => (lookupA e.docs i).isSome

/- Fetcher embedding, `data_loader.fetch_messages_once`.  The upstream is a
function from the request parameters `skip` and `limit` and the attempt
number (1-based, within one page's retry loop; the probe request is attempt
1 at limit 1) to the outcome of that single HTTP request. -/

/-- Outcome of one HTTP request attempt. -/
inductive Att where
  | net
  | http (status : Nat)
  | ok (body : JVal)

/-- Abstract upstream: skip, limit, attempt number. -/
abbrev Upstream := Int → Int → Nat → Att

/-- Outcome of one page's retry loop (up to 3 attempts). -/
inductive PageOutcome where
  | gotData (j : JVal)
  | auth (status : Nat)
  | exhausted

/-- The attempt numbers of one page's retry loop, `range(1, max_retries+1)`. -/
def retryAttempts : List Nat := [1, 2, 3]

/-- Retry loop for one page: success breaks with the body; HTTP 401/403
breaks with `data = None`; other HTTP errors and network errors retry until
the attempt list is exhausted. -/
def retryPage (u : Upstream) (skip chunk : Int) : List Nat → PageOutcome
  | [] => .exhausted
  | a :: rest =>
    match u skip chunk a with
    | .ok j => .gotData j
    | .http s => if s = 401 ∨ s = 403 then .auth s else retryPage u skip chunk rest
    | .net => retryPage u skip chunk rest

/-- Mutable state of the `while True` paging loop.  `dataVar` models the
Python local `data`: `none` is the unbound state (never assigned yet),
`some none` is `data = None`, `some (some j)` is a parsed payload.  It is
only reset on success or on a 401/403, not when retries are exhausted. -/
structure LoopState where
  allItems : List JVal
  skip : Int
  dataVar : Option (Option JVal)

/-- Result of one iteration of the paging loop. -/
inductive StepRes where
  | cont (s : LoopState)
  | stop (items : List JVal)
  | err (msg : String)

/-- Python `int(v)` as used on the reported `total`. -/
def pyInt : JVal → Except String Int
  | .jnum n => .ok n
  | .jbool b => .ok (if b then 1 else 0)
  | .jstr s =>
    match s.toInt? with
    | some n => .ok n
    | none => .error "ValueError: invalid literal for int"
  | _ => .error "TypeError: int argument must be a number"

/-- Python truthiness of a value, as in `pdata.get(\"total\")` guarding the
probe. -/
def pyTruthy : JVal → Bool
  | .jstr s => !(s == "")
  | .jnum n => !(n == 0)
  | .jbool b => b
  | .jnull => false
  | .jarr xs => !xs.isEmpty
  | .jobj fs => !fs.isEmpty

/-- Is the value a JSON object (a Python dict)? -/
def JVal.isObjB : JVal → Bool
  | .jobj _ => true
  | _ => false

/-- The value of `data.get(\"total\")` seen by `is not None` tests: an absent
key and a JSON null both give Python `None`. -/
def getTotal (fields : List (String × JVal)) : Option JVal :=
  match lookupA fields "total" with
  | some .jnull => none
  | some v => some v
  | none => none

/-- Scan of the container keys `messages`, `data`, `results` in order. -/
def containerScan (fields : List (String × JVal)) : List String → Option (List JVal)
  | [] => none
  | k :: ks =>
    match lookupA fields k with
    | some (.jarr xs) => some xs
    | _ => containerScan fields ks

/-- Payload normalization of one page (`data_loader.py` lines 86-107): a bare
array; an object with an `items` array; an object with a known container key;
an object whose every value is an object, flattened to its values; any other
OBJECT falls through with an empty item list; a non-array non-object payload
raises ValueError. -/
def normalizePage (j : JVal) : Except String (List JVal × Option JVal) :=
  match j with
  | .jarr xs => .ok (xs, none)
  | .jobj fields =>
    match lookupA fields "items" with
    | some (.jarr xs) => .ok (xs, getTotal fields)
    | _ =>
      match containerScan fields ["messages", "data", "results"] with
      | some xs => .ok (xs, getTotal fields)
      | none =>
        if fields.all fun kv => kv.2.isObjB then .ok (fields.map Prod.snd, none)
        else .ok ([], none)
  | _ => .error "Unexpected response shape from messages endpoint"

/-- The tail of a loop iteration once a payload `j` is in `data` (fresh or
stale): normalize, stop on an empty page, extend the accumulator, stop when
the reported total is reached or the page was short, else advance `skip`. -/
def afterData (chunk : Int) (s : LoopState) (j : JVal) : StepRes :=
  match normalizePage j with
  | .error e => .err e
  | .ok (items, totalV) =>
    if items.isEmpty then .stop s.allItems
    else
      let all := s.allItems ++ items
      match totalV with
      | some tv =>
        match pyInt tv with
        | .error e => .err e
        | .ok t =>
          if (all.length : Int) ≥ t then .stop all
          else if (items.length : Int) < chunk then .stop all
          else .cont { s with allItems := all, skip := s.skip + chunk }
      | none =>
        if (items.length : Int) < chunk then .stop all
        else .cont { s with allItems := all, skip := s.skip + chunk }

/-- One iteration of the `while True` loop.  On exhausted retries the code
only stops when `data is None`; an unbound `data` (first page) raises, and a
stale payload from an earlier page is re-processed. -/
def pageStep (u : Upstream) (chunk : Int) (s : LoopState) : StepRes :=
  match retryPage u s.skip chunk retryAttempts with
  | .gotData j => afterData chunk { s with dataVar := some (some j) } j
  | .auth _ => .stop s.allItems
  | .exhausted =>
    match s.dataVar with
    | none => .err "UnboundLocalError: local variable referenced before assignment"
    | some none => .stop s.allItems
    | some (some j) => afterData chunk s j

/-- Fuel-indexed run of the paging loop; `none` means the fuel ran out before
the loop finished. -/
def runLoop (u : Upstream) (chunk : Int) : Nat → LoopState → Option (Except String (List JVal))
  | 0, _ => none
  | fuel + 1, s =>
    match pageStep u chunk s with
    | .stop items => some (.ok items)
    | .err e => some (.error e)
    | .cont s2 => runLoop u chunk fuel s2

/-- The probe request discovering a total when no message limit is given
(`data_loader.py` lines 28-38): any request failure is caught and leaves the
limit unknown; a truthy `total` goes through `int`, whose failure escapes. -/
def probeLimit (u : Upstream) : Except String (Option Int) :=
  match u 0 1 1 with
  | .ok (.jobj fields) =>
    match lookupA fields "total" with
    | some tv => if pyTruthy tv then (pyInt tv).map some else .ok none
    | none => .ok none
  | _ => .ok none

/-- Embedding of `fetch_messages_once`: probe (when no limit is given) to
pick the chunk size, then page until a stop condition; `none` means the
paging loop was still running when the fuel ran out. -/
def fetch_messages_once (u : Upstream) (message_limit : Option Int) (fuel : Nat) :
    Option (Except String (List JVal)) :=
  match (match message_limit with
         | some l => Except.ok (some l)
         | none => probeLimit u) with
  | .error e => some (.error e)
  | .ok mlv =>
    let chunk : Int := mlv.getD 100
    runLoop u chunk fuel ⟨[], 0, none⟩

/-- Divergence of a fetch call: no amount of fuel finishes the paging loop. -/
def fetchDiverges (u : Upstream) (message_limit : Option Int) : Prop :=
  ∀ fuel, fetch_messages_once u message_limit fuel = none

/- Specification-side predicates used to state the claims. -/

/-- A payload that is neither a JSON array nor a JSON object. -/
def jIsScalar : JVal → Bool
  | .jarr _ => false
  | .jobj _ => false
  | _ => true

/-- Does the object have an array under key `k`? -/
def isArrField (fields : List (String × JVal)) (k : String) : Bool :=
  match lookupA fields k with
  | some (.jarr _) => true
  | _ => false

/-- The accepted object page shapes of the spec: an `items` array, a known
container key with an array, or an id-to-document map. -/
def objShapeAccepted (fields : List (String × JVal)) : Bool :=
  isArrField fields "items" ||
    (["messages", "data", "results"].any fun k => isArrField fields k) ||
    fields.all fun kv => kv.2.isObjB

/-- Conclusion of the identifier-query claim for a given call: the result is
the paginated list of exact id / user_id matches with their count as total,
and membership in that list is exactly exact-match equality. -/
def C4Concl (e : SearchEngine) (query : String) (page psize : Nat) : Prop :=
  e.search query page psize =
      .ok ((uuidMatchesOf e (pyStrip query)).length,
        sliceL (uuidMatchesOf e (pyStrip query)) page psize) ∧
    ∀ d : Doc, d ∈ uuidMatchesOf e (pyStrip query) ↔
      ∃ cid, (cid, d) ∈ e.docs ∧
        (pyStrOpt (getField d "id") = (pyStrip query) ∨
          pyStrOpt (getField d "user_id") = (pyStrip query))

/-- Conclusion of the general-query claim: union candidate set, substring
fallback exactly when the union is empty, score bounds, ranking order, and
total = candidate count. -/
def C5Concl (e : SearchEngine) (query : String) : Prop :=
  (∀ cid, cid ∈ candidate_union e (tokenize query) ↔
      ∃ t ∈ tokenize query, cid ∈ indexGet e t) ∧
    (candidate_union e (tokenize query) ≠ [] →
      candidatesOf e query = candidate_union e (tokenize query)) ∧
    (candidate_union e (tokenize query) = [] →
      ∀ cid, cid ∈ candidatesOf e query ↔
        ∃ d, (cid, d) ∈ e.docs ∧
          substrB (pyLower query).data (fallbackText d).data = true) ∧
    (∀ cid, scoreOf e (tokenize query) cid ≤ (tokenize query).length) ∧
    List.Sorted rankLE (List.insertionSort rankLE (scoredOf e query)) ∧
    (orderedIdsOf e query).Perm (candidatesOf e query) ∧
    ∀ p s n rs, e.search query p s = .ok (n, rs) → n = (candidatesOf e query).length

/-- Conclusion of the pagination claim: one fixed ranked sequence, every page
is its arithmetic slice, and the pages tile it exactly. -/
def C6Concl (e : SearchEngine) (query : String) (psize : Nat) : Prop :=
  ∃ L, rankedDocs e query = .ok L ∧
    (∀ p, e.search query p psize = .ok (L.length, sliceL L p psize)) ∧
    ((List.range ((L.length + psize - 1) / psize)).flatMap fun i => sliceL L (i + 1) psize) = L

/-- Conclusion of the search safety claim for a built index: a normal result
whose page is bounded by `psize`, drawn from the store, and counted by a
total at least as large. -/
def C10Concl (docs : List Doc) (f query : String) (page psize : Nat) : Prop :=
  ∃ n rs, (SearchEngine.build_index ⟨[], []⟩ docs f).search query page psize = .ok (n, rs) ∧
    rs.length ≤ psize ∧ rs.length ≤ n ∧
    ∀ d ∈ rs, ∃ cid, (cid, d) ∈ (SearchEngine.build_index ⟨[], []⟩ docs f).docs

/- Concrete instances used by the evaluation theorems and witnesses. -/

/-- Upstream document 1. -/
def dJ1 : JVal := .jobj [("id", .jstr "1")]

/-- Upstream document 2. -/
def dJ2 : JVal := .jobj [("id", .jstr "2")]

/-- Upstream whose first page succeeds (two items, reported total 4) and whose
later pages fail with HTTP 500 on every attempt. -/
def uStale : Upstream := fun skip _ _ =>
  if skip = 0 then .ok (.jobj [("items", .jarr [dJ1, dJ2]), ("total", .jnum 4)])
  else .http 500

/-- Upstream whose first page is a full bare-array page with no total and
whose later pages fail with network errors on every attempt. -/
def uLoop : Upstream := fun skip _ _ =>
  if skip = 0 then .ok (.jarr [dJ1]) else .net

/-- Upstream whose first page succeeds and whose second page is an object
matching none of the accepted shapes. -/
def uShape : Upstream := fun skip _ _ =>
  if skip = 0 then .ok (.jobj [("items", .jarr [dJ1]), ("total", .jnum 3)])
  else .ok (.jobj [("foo", .jstr "bar")])

/-- Upstream whose first page succeeds and whose second page returns 401. -/
def uAuth : Upstream := fun skip _ _ =>
  if skip = 0 then .ok (.jobj [("items", .jarr [dJ1, dJ2]), ("total", .jnum 4)])
  else .http 401

/-- A document with a resolvable id and some text. -/
def docA : Doc := [("id", .jstr "a"), ("text", .jstr "hi")]

/-- Two documents resolving to the same identifier. -/
def dupDocs : List Doc := [[("id", .jstr "1")], [("id", .jstr "1"), ("x", .jstr "y")]]

/-- The three-document corpus of the spec's test scenario. -/
def demoDocs : List Doc :=
  [[("id", .jstr "1"), ("text", .jstr "Hello world")],
   [("id", .jstr "2"), ("text", .jstr "Goodbye world")],
   [("id", .jstr "3"), ("text", .jstr "Hello there")]]

/-- The engine built from the demo corpus. -/
def demoEngine : SearchEngine := SearchEngine.build_index ⟨[], []⟩ demoDocs "id"

/-- An engine holding one document with an identifier-shaped id. -/
def uuidEngine : SearchEngine :=
  SearchEngine.build_index ⟨[], []⟩
    [[("id", .jstr "11111111-2222-3333-4444-555555555555"), ("text", .jstr "note")]] "id"

/-- An engine whose single document contains the text `deadbeef`. -/
def beefEngine : SearchEngine :=
  SearchEngine.build_index ⟨[], []⟩ [[("id", .jstr "x"), ("text", .jstr "deadbeef")]] "id"

/- Helper lemmas about association lists with Python dict semantics. -/

theorem mem_of_lookupA {α : Type} {m : List (String × α)} {k : String} {v : α}
    (h : lookupA m k = some v) : (k, v) ∈ m := by
  induction m with
  | nil => simp [lookupA] at h
  | cons kv rest ih =>
    obtain ⟨k1, v1⟩ := kv
    by_cases hk : k1 = k
    · subst hk
      simp [lookupA] at h
      simp [h]
    · simp [lookupA, hk] at h
      exact List.mem_cons_of_mem _ (ih h)

theorem lookupA_isSome_iff {α : Type} {m : List (String × α)} {k : String} :
    (lookupA m k).isSome ↔ k ∈ m.map Prod.fst := by
  induction m with
  | nil => simp [lookupA]
  | cons kv rest ih =>
    obtain ⟨k1, v1⟩ := kv
    by_cases hk : k1 = k
    · subst hk
      simp [lookupA]
    · have hk2 : ¬ k = k1 := fun h => hk h.symm
      simp [lookupA, hk, ih, hk2]

theorem lookupA_self_of_nodup {α : Type} {m : List (String × α)} {k : String} {v : α}
    (hn : (m.map Prod.fst).Nodup) (h : (k, v) ∈ m) : lookupA m k = some v := by
  induction m with
  | nil => simp at h
  | cons kv rest ih =>
    obtain ⟨k1, v1⟩ := kv
    simp only [List.map_cons, List.nodup_cons] at hn
    rcases List.mem_cons.mp h with he | hm
    · rw [Prod.mk.injEq] at he
      obtain ⟨h1, h2⟩ := he
      subst h1; subst h2
      simp [lookupA]
    · have hk1 : k1 ≠ k := by
        intro hkk
        subst hkk
        exact hn.1 (List.mem_map_of_mem Prod.fst hm)
      simp [lookupA, hk1, ih hn.2 hm]

theorem pyInsert_keys_mem {α : Type} (m : List (String × α)) (k : String) (v : α)
    (x : String) :
    x ∈ (pyInsert m k v).map Prod.fst ↔ x ∈ m.map Prod.fst ∨ x = k := by
  induction m with
  | nil => simp [pyInsert]
  | cons kv rest ih =>
    obtain ⟨k1, v1⟩ := kv
    by_cases hk : k1 = k
    · subst hk
      simp [pyInsert]
      tauto
    · simp [pyInsert, hk, ih]
      tauto

theorem pyInsert_nodup {α : Type} {m : List (String × α)} (k : String) (v : α)
    (hn : (m.map Prod.fst).Nodup) : ((pyInsert m k v).map Prod.fst).Nodup := by
  induction m with
  | nil => simp [pyInsert]
  | cons kv rest ih =>
    obtain ⟨k1, v1⟩ := kv
    simp only [List.map_cons, List.nodup_cons] at hn
    by_cases hk : k1 = k
    · subst hk
      have hre : pyInsert ((k1, v1) :: rest) k1 v = (k1, v) :: rest := by
        simp [pyInsert]
      rw [hre]
      simp only [List.map_cons, List.nodup_cons]
      exact ⟨hn.1, hn.2⟩
    · simp only [pyInsert, if_neg hk, List.map_cons, List.nodup_cons]
      refine ⟨?_, ih hn.2⟩
      intro hmem
      rcases (pyInsert_keys_mem rest k v k1).mp hmem with h | h
      · exact hn.1 h
      · exact hk h

theorem map_lookupA_keys {α : Type} (dflt : α) {m : List (String × α)}
    (hn : (m.map Prod.fst).Nodup) :
    (m.map Prod.fst).map (fun k => (lookupA m k).getD dflt) = m.map Prod.snd := by
  induction m with
  | nil => simp
  | cons kv rest ih =>
    obtain ⟨k1, v1⟩ := kv
    simp only [List.map_cons, List.nodup_cons] at hn
    simp only [List.map_cons]
    congr 1
    · simp [lookupA]
    · have hcong : ∀ x ∈ rest.map Prod.fst,
          (lookupA ((k1, v1) :: rest) x).getD dflt = (lookupA rest x).getD dflt := by
        intro x hx
        have hne : k1 ≠ x := fun h => hn.1 (h ▸ hx)
        simp [lookupA, hne]
      rw [List.map_congr_left hcong]
      exact ih hn.2

/- Helper lemmas about slicing and page concatenation. -/

theorem sliceL_map {α β : Type} (f : α → β) (l : List α) (p s : Nat) :
    sliceL (l.map f) p s = (sliceL l p s).map f := by
  simp [sliceL, List.map_take, List.map_drop]

theorem sliceL_subset {α : Type} (l : List α) (p s : Nat) :
    ∀ x ∈ sliceL l p s, x ∈ l := by
  intro x hx
  exact List.mem_of_mem_drop (List.mem_of_mem_take hx)

theorem sliceL_length_le {α : Type} (l : List α) (p s : Nat) :
    (sliceL l p s).length ≤ s :=
  List.length_take_le _ _

theorem sliceL_length_le_len {α : Type} (l : List α) (p s : Nat) :
    (sliceL l p s).length ≤ l.length := by
  unfold sliceL
  calc ((l.drop ((p - 1) * s)).take s).length ≤ (l.drop ((p - 1) * s)).length :=
        List.length_take_le' ..
    _ ≤ l.length := by
        rw [List.length_drop]
        omega

theorem flatMap_take_drop {α : Type} :
    ∀ (n : Nat) (l : List α) (s : Nat), l.length ≤ n * s →
      ((List.range n).flatMap fun i => (l.drop (i * s)).take s) = l := by
  intro n
  induction n with
  | zero =>
    intro l s h
    simp only [Nat.zero_mul, Nat.le_zero] at h
    simp [List.length_eq_zero.mp h]
  | succ n ih =>
    intro l s h
    rw [List.range_succ_eq_map, List.flatMap_cons, List.flatMap_map]
    have hrw : (fun a => (l.drop (Nat.succ a * s)).take s) =
        fun a => ((l.drop s).drop (a * s)).take s := by
      funext a
      rw [List.drop_drop]
      congr 2
      rw [Nat.succ_mul, Nat.add_comm]
    have hlin : (n + 1) * s = n * s + s := by ring
    have hlen : (l.drop s).length ≤ n * s := by
      rw [List.length_drop]
      omega
    rw [hrw, ih (l.drop s) s hlen, Nat.zero_mul, List.drop_zero, List.take_append_drop]

theorem le_ceil_mul (len s : Nat) (hs : 1 ≤ s) : len ≤ ((len + s - 1) / s) * s := by
  have key := Nat.div_add_mod (len + s - 1) s
  have hmod : (len + s - 1) % s < s := Nat.mod_lt _ (by omega)
  rw [Nat.mul_comm]
  omega

/- Helper lemmas about resolving ids through the store. -/

theorem resolveDocs_ok {e : SearchEngine} : ∀ {ids : List String},
    (∀ i ∈ ids, (lookupA e.docs i).isSome) →
    resolveDocs e ids = .ok (ids.map fun i => (lookupA e.docs i).getD []) := by
  intro ids
  induction ids with
  | nil => intro _; rfl
  | cons i rest ih =>
    intro h
    have hi := h i (by simp)
    obtain ⟨d, hd⟩ := Option.isSome_iff_exists.mp hi
    simp [resolveDocs, hd, ih fun x hx => h x (by simp [hx]), Except.map]

/- Helper lemmas about the candidate sets of the general query path. -/

theorem mem_candidate_union_aux (e : SearchEngine) :
    ∀ (toks : List String) (acc : List String) (cid : String),
      (cid ∈ toks.foldl
          (fun acc t => acc ++ ((indexGet e t).filter fun i => decide (¬ i ∈ acc))) acc) ↔
        cid ∈ acc ∨ ∃ t ∈ toks, cid ∈ indexGet e t := by
  intro toks
  induction toks with
  | nil => intro acc cid; simp
  | cons t ts ih =>
    intro acc cid
    rw [List.foldl_cons, ih]
    constructor
    · rintro (hm | ⟨t2, ht2, hm2⟩)
      · rcases List.mem_append.mp hm with h | h
        · exact Or.inl h
        · exact Or.inr ⟨t, by simp, (List.mem_filter.mp h).1⟩
      · exact Or.inr ⟨t2, by simp [ht2], hm2⟩
    · rintro (hm | ⟨t2, ht2, hm2⟩)
      · exact Or.inl (List.mem_append.mpr (Or.inl hm))
      · rcases List.mem_cons.mp ht2 with he | hin
        · subst he
          by_cases hacc : cid ∈ acc
          · exact Or.inl (List.mem_append.mpr (Or.inl hacc))
          · exact Or.inl (List.mem_append.mpr
              (Or.inr (List.mem_filter.mpr ⟨hm2, by simp [hacc]⟩)))
        · exact Or.inr ⟨t2, hin, hm2⟩

theorem mem_candidate_union (e : SearchEngine) (toks : List String) (cid : String) :
    cid ∈ candidate_union e toks ↔ ∃ t ∈ toks, cid ∈ indexGet e t := by
  unfold candidate_union
  rw [mem_candidate_union_aux]
  simp

theorem mem_fallback_candidates (e : SearchEngine) (q : String) (cid : String) :
    cid ∈ fallback_candidates e q ↔
      ∃ d, (cid, d) ∈ e.docs ∧ substrB (pyLower q).data (fallbackText d).data = true := by
  unfold fallback_candidates
  constructor
  · intro h
    obtain ⟨kv, hkv, hfst⟩ := List.mem_map.mp h
    obtain ⟨hm, hp⟩ := List.mem_filter.mp hkv
    obtain ⟨k, d⟩ := kv
    subst hfst
    exact ⟨d, hm, hp⟩
  · rintro ⟨d, hm, hp⟩
    exact List.mem_map.mpr ⟨(cid, d), List.mem_filter.mpr ⟨hm, hp⟩, rfl⟩

theorem engineWF_iff {e : SearchEngine} :
    engineWF e = true ↔ ∀ p ∈ e.index, ∀ i ∈ p.2, (lookupA e.docs i).isSome := by
  simp [engineWF, List.all_eq_true]

theorem indexGet_isSome {e : SearchEngine} (hwf : engineWF e = true) (t : String) :
    ∀ i ∈ indexGet e t, (lookupA e.docs i).isSome := by
  intro i hi
  unfold indexGet at hi
  cases h : lookupA e.index t with
  | none => rw [h] at hi; simp at hi
  | some ids =>
    rw [h] at hi
    simp only [Option.getD_some] at hi
    exact (engineWF_iff.mp hwf) (t, ids) (mem_of_lookupA h) i hi

/- Helper lemmas about the invariants established by build_index. -/

theorem indexAdd_mem_sub :
    ∀ (idx : List (String × List String)) (tok i0 : String)
      (p : String × List String), p ∈ indexAdd idx tok i0 →
      ∀ x ∈ p.2, x = i0 ∨ ∃ q ∈ idx, x ∈ q.2 := by
  intro idx
  induction idx with
  | nil =>
    intro tok i0 p hp x hx
    simp [indexAdd] at hp
    subst hp
    simp at hx
    exact Or.inl hx
  | cons hd rest ih =>
    intro tok i0 p hp x hx
    obtain ⟨t, ids⟩ := hd
    by_cases ht : t = tok
    · subst ht
      simp only [indexAdd, if_pos rfl] at hp
      rcases List.mem_cons.mp hp with he | hin
      · subst he
        simp only at hx
        by_cases hmem : i0 ∈ ids
        · rw [if_pos hmem] at hx
          exact Or.inr ⟨(t, ids), by simp, hx⟩
        · rw [if_neg hmem] at hx
          rcases List.mem_append.mp hx with h | h
          · exact Or.inr ⟨(t, ids), by simp, h⟩
          · simp at h
            exact Or.inl h
      · exact Or.inr ⟨p, by simp [hin], hx⟩
    · simp only [indexAdd, if_neg ht] at hp
      rcases List.mem_cons.mp hp with he | hin
      · subst he
        exact Or.inr ⟨(t, ids), by simp, hx⟩
      · rcases ih tok i0 p hin x hx with h | ⟨q, hq, hqx⟩
        · exact Or.inl h
        · exact Or.inr ⟨q, by simp [hq], hqx⟩

theorem indexDoc_mem_sub :
    ∀ (toks : List String) (idx : List (String × List String)) (did : String)
      (p : String × List String), p ∈ indexDoc idx did toks →
      ∀ x ∈ p.2, x = did ∨ ∃ q ∈ idx, x ∈ q.2 := by
  intro toks
  induction toks with
  | nil =>
    intro idx did p hp x hx
    exact Or.inr ⟨p, hp, hx⟩
  | cons t ts ih =>
    intro idx did p hp x hx
    unfold indexDoc at hp
    rw [List.foldl_cons] at hp
    rcases ih (indexAdd idx t did) did p hp x hx with h | ⟨q, hq, hqx⟩
    · exact Or.inl h
    · rcases indexAdd_mem_sub idx t did q hq x hqx with h | h
      · exact Or.inl h
      · exact Or.inr h

theorem foldl_buildStep_inv (f : String) :
    ∀ (docs : List Doc) (acc : SearchEngine),
      (acc.docs.map Prod.fst).Nodup →
      (∀ p ∈ acc.index, ∀ i ∈ p.2, i ∈ acc.docs.map Prod.fst) →
      ((docs.foldl (buildStep f) acc).docs.map Prod.fst).Nodup ∧
        ∀ p ∈ (docs.foldl (buildStep f) acc).index, ∀ i ∈ p.2,
          i ∈ (docs.foldl (buildStep f) acc).docs.map Prod.fst := by
  intro docs
  induction docs with
  | nil => intro acc h1 h2; exact ⟨h1, h2⟩
  | cons d ds ih =>
    intro acc h1 h2
    rw [List.foldl_cons]
    apply ih
    · cases hres : resolveId f d with
      | none => simpa [buildStep, hres] using h1
      | some did =>
        simp only [buildStep, hres]
        exact pyInsert_nodup _ _ h1
    · cases hres : resolveId f d with
      | none => simpa [buildStep, hres] using h2
      | some did =>
        simp only [buildStep, hres]
        intro p hp i hi
        rcases indexDoc_mem_sub _ _ _ p hp i hi with he | ⟨q, hq, hqi⟩
        · exact (pyInsert_keys_mem _ _ _ _).mpr (Or.inr he)
        · exact (pyInsert_keys_mem _ _ _ _).mpr (Or.inl (h2 q hq i hqi))

theorem buildSteps_nodup (docs : List Doc) (f : String) :
    ((buildSteps docs f).docs.map Prod.fst).Nodup :=
  (foldl_buildStep_inv f docs ⟨[], []⟩ (by simp) (by simp)).1

theorem buildSteps_index_sub (docs : List Doc) (f : String) :
    ∀ p ∈ (buildSteps docs f).index, ∀ i ∈ p.2,
      i ∈ (buildSteps docs f).docs.map Prod.fst :=
  (foldl_buildStep_inv f docs ⟨[], []⟩ (by simp) (by simp)).2

theorem engineWF_buildSteps (docs : List Doc) (f : String) :
    engineWF (buildSteps docs f) = true := by
  rw [engineWF_iff]
  intro p hp i hi
  exact lookupA_isSome_iff.mpr (buildSteps_index_sub docs f p hp i hi)

theorem foldl_keys_mem (f : String) :
    ∀ (docs : List Doc) (acc : SearchEngine) (x : String),
      x ∈ (docs.foldl (buildStep f) acc).docs.map Prod.fst ↔
        x ∈ acc.docs.map Prod.fst ∨ x ∈ docs.filterMap (resolveId f) := by
  intro docs
  induction docs with
  | nil => intro acc x; simp
  | cons d ds ih =>
    intro acc x
    rw [List.foldl_cons, ih]
    cases hres : resolveId f d with
    | none => simp [buildStep, hres]
    | some did =>
      simp only [buildStep, hres, List.filterMap_cons]
      rw [pyInsert_keys_mem]
      simp only [List.mem_cons]
      tauto

theorem buildSteps_docs_length (docs : List Doc) (f : String) :
    (buildSteps docs f).docs.length = (docs.filterMap (resolveId f)).toFinset.card := by
  have hn := buildSteps_nodup docs f
  have hkeys : ∀ x, x ∈ (buildSteps docs f).docs.map Prod.fst ↔
      x ∈ docs.filterMap (resolveId f) := by
    intro x
    have := foldl_keys_mem f docs ⟨[], []⟩ x
    simpa [buildSteps] using this
  calc (buildSteps docs f).docs.length
      = ((buildSteps docs f).docs.map Prod.fst).length := (List.length_map _ _).symm
    _ = ((buildSteps docs f).docs.map Prod.fst).toFinset.card :=
        (List.toFinset_card_of_nodup hn).symm
    _ = (docs.filterMap (resolveId f)).toFinset.card := by
        congr 1
        ext x
        simp only [List.mem_toFinset]
        exact hkeys x

/- Helper lemmas connecting search to the fixed ranked sequence. -/

theorem map_snd_pair (s : String → Nat) :
    ∀ c : List String, (c.map fun cid => (s cid, cid)).map Prod.snd = c := by
  intro c
  induction c with
  | nil => rfl
  | cons a l ih => simp only [List.map_cons, ih]

theorem orderedIds_perm (e : SearchEngine) (query : String) :
    (orderedIdsOf e query).Perm (candidatesOf e query) := by
  unfold orderedIdsOf
  have h1 := (List.perm_insertionSort rankLE (scoredOf e query)).map Prod.snd
  rw [scoredOf, map_snd_pair] at h1
  exact h1

theorem candidates_isSome {e : SearchEngine} (hwf : engineWF e = true) (query : String) :
    ∀ i ∈ candidatesOf e query, (lookupA e.docs i).isSome := by
  intro i hi
  simp only [candidatesOf] at hi
  by_cases hun : (candidate_union e (tokenize query)).isEmpty
  · rw [if_pos hun] at hi
    obtain ⟨d, hd, _⟩ := (mem_fallback_candidates e query i).mp hi
    exact lookupA_isSome_iff.mpr (List.mem_map_of_mem Prod.fst hd)
  · rw [if_neg hun] at hi
    obtain ⟨t, _, hidx⟩ := (mem_candidate_union e (tokenize query) i).mp hi
    exact indexGet_isSome hwf t i hidx

theorem search_resolve_branch {e : SearchEngine} {ids : List String}
    (hall : ∀ i ∈ ids, (lookupA e.docs i).isSome) :
    resolveDocs e ids = .ok (ids.map fun i => (lookupA e.docs i).getD []) ∧
      (∀ d ∈ ids.map (fun i => (lookupA e.docs i).getD []), ∃ cid, (cid, d) ∈ e.docs) ∧
      ∀ p s, resolveDocs e (sliceL ids p s) =
        .ok (sliceL (ids.map fun i => (lookupA e.docs i).getD []) p s) := by
  refine ⟨resolveDocs_ok hall, ?_, ?_⟩
  · intro d hd
    obtain ⟨i, hi, hdi⟩ := List.mem_map.mp hd
    obtain ⟨d0, hd0⟩ := Option.isSome_iff_exists.mp (hall i hi)
    refine ⟨i, ?_⟩
    rw [hd0] at hdi
    simp only [Option.getD_some] at hdi
    exact hdi ▸ mem_of_lookupA hd0
  · intro p s
    rw [resolveDocs_ok (fun i hi => hall i (sliceL_subset ids p s i hi)), sliceL_map]

theorem searchOk (e : SearchEngine) (query : String) (hwf : engineWF e = true) :
    ∃ L, rankedDocs e query = .ok L ∧ (∀ d ∈ L, ∃ cid, (cid, d) ∈ e.docs) ∧
      ∀ page psize, e.search query page psize = .ok (L.length, sliceL L page psize) := by
  by_cases hu : uuidMatch (pyStrip query) = true
  · refine ⟨uuidMatchesOf e (pyStrip query), by simp [rankedDocs, hu], ?_, ?_⟩
    · intro d hd
      obtain ⟨kv, hkv, hsnd⟩ := List.mem_map.mp hd
      obtain ⟨hm, _⟩ := List.mem_filter.mp hkv
      obtain ⟨k, d0⟩ := kv
      subst hsnd
      exact ⟨k, hm⟩
    · intro p s
      simp [SearchEngine.search, hu]
  · by_cases hq : query = ""
    · subst hq
      have hall : ∀ i ∈ e.docs.map Prod.fst, (lookupA e.docs i).isSome :=
        fun i hi => lookupA_isSome_iff.mpr hi
      obtain ⟨hok, hmem, hslice⟩ := search_resolve_branch hall
      refine ⟨_, ?_, hmem, ?_⟩
      · simp only [rankedDocs, hu, Bool.false_eq_true, if_false, if_pos rfl]
        exact hok
      · intro p s
        simp only [SearchEngine.search, hu, Bool.false_eq_true, if_false, if_pos rfl]
        rw [hslice p s]
        simp [List.length_map]
    · by_cases ht : (tokenize query).isEmpty
      · refine ⟨[], ?_, by simp, ?_⟩
        · simp [rankedDocs, hu, hq, ht]
        · intro p s
          simp [SearchEngine.search, hu, hq, ht, sliceL]
      · have hcand := candidates_isSome hwf query
        have hids : ∀ i ∈ orderedIdsOf e query, (lookupA e.docs i).isSome :=
          fun i hi => hcand i ((orderedIds_perm e query).subset hi)
        obtain ⟨hok, hmem, hslice⟩ := search_resolve_branch hids
        refine ⟨_, ?_, hmem, ?_⟩
        · simp only [rankedDocs, hu, Bool.false_eq_true, if_false, hq, ht]
          exact hok
        · intro p s
          simp only [SearchEngine.search, hu, Bool.false_eq_true, if_false, hq, ht]
          rw [hslice p s]
          simp [List.length_map]

/- Helper lemmas for the fetcher claims. -/

theorem uLoop_stuck :
    ∀ (fuel : Nat) (all : List JVal) (skip : Int), 1 ≤ skip →
      runLoop uLoop 1 fuel ⟨all, skip, some (some (.jarr [dJ1]))⟩ = none := by
  intro fuel
  induction fuel with
  | zero => intro all skip h; rfl
  | succ n ih =>
    intro all skip h
    have hneq : ¬ skip = 0 := by omega
    have hstep : pageStep uLoop 1 ⟨all, skip, some (some (.jarr [dJ1]))⟩ =
        .cont ⟨all ++ [dJ1], skip + 1, some (some (.jarr [dJ1]))⟩ := by
      simp [pageStep, retryPage, retryAttempts, uLoop, hneq, afterData, normalizePage]
    simp only [runLoop, hstep]
    exact ih (all ++ [dJ1]) (skip + 1) (by omega)

theorem containerScan_eq_none {fields : List (String × JVal)} :
    ∀ ks : List String, (∀ k ∈ ks, isArrField fields k = false) →
      containerScan fields ks = none := by
  intro ks
  induction ks with
  | nil => intro _; rfl
  | cons k rest ih =>
    intro h
    have hk := h k (by simp)
    have hrest := ih fun x hx => h x (by simp [hx])
    unfold isArrField at hk
    unfold containerScan
    cases hlk : lookupA fields k with
    | none => exact hrest
    | some v =>
      cases v with
      | jarr xs => rw [hlk] at hk; simp at hk
      | jstr s => exact hrest
      | jnum n => exact hrest
      | jbool b => exact hrest
      | jnull => exact hrest
      | jobj fs => exact hrest

theorem normalizePage_unmatched {fields : List (String × JVal)}
    (h : objShapeAccepted fields = false) : normalizePage (.jobj fields) = .ok ([], none) := by
  unfold objShapeAccepted at h
  simp only [Bool.or_eq_false_iff] at h
  obtain ⟨⟨h1, h2⟩, h3⟩ := h
  have hscan : containerScan fields ["messages", "data", "results"] = none := by
    apply containerScan_eq_none
    intro k hk
    rw [List.any_eq_false] at h2
    exact Bool.eq_false_iff.mpr (h2 k hk)
  unfold isArrField at h1
  simp only [normalizePage]
  cases hlk : lookupA fields "items" with
  | none => simp [hscan, h3]
  | some v =>
    cases v with
    | jarr xs => rw [hlk] at h1; simp at h1
    | jstr s => simp [hscan, h3]
    | jnum n => simp [hscan, h3]
    | jbool b => simp [hscan, h3]
    | jnull => simp [hscan, h3]
    | jobj fs => simp [hscan, h3]

/-- C1: the claim says that when a page's 3 retries are exhausted, or a page
returns 401/403, the fetch stops paging and returns exactly the documents
from the pages already fetched, never raising.  The code violates the
exhausted-retries half: `data` is not reset when retries run out, so after a
successful page 1 (two items, reported total 4) a page 2 failing all three
attempts with HTTP 500 re-processes the stale page-1 payload and the call
returns page 1's two items twice instead of once (and it raises if the very
first page exhausts its retries).  This theorem evaluates the embedded code
at that failing input. -/
theorem c1_stale_retry_eval :
    fetch_messages_once uStale (some 2) 10 = some (.ok [dJ1, dJ2, dJ1, dJ2]) := rfl

/-- C9: the claim says the paging loop terminates for every sequence of
upstream responses and stops exactly on total-reached / empty page / short
page / terminal error.  The code violates the exhausted-retries stop
condition: with a full first page carrying no total and every later page
failing all attempts, the loop re-processes the stale page-1 payload forever
and never stops, for any amount of fuel. -/
theorem c9_fetch_diverges : fetchDiverges uLoop (some 1) := by
  intro fuel
  cases fuel with
  | zero => rfl
  | succ n =>
    have hstep : pageStep uLoop 1 ⟨[], 0, none⟩ =
        .cont ⟨[dJ1], 1, some (some (.jarr [dJ1]))⟩ := by
      simp [pageStep, retryPage, retryAttempts, uLoop, afterData, normalizePage]
    show runLoop uLoop 1 (n + 1) ⟨[], 0, none⟩ = none
    simp only [runLoop, hstep]
    exact uLoop_stuck n [dJ1] 1 (by omega)

/-- C8 counterexample: the claim says any page payload outside the accepted
shapes is a fatal parse error that fails the whole call without returning the
collected documents; but an OBJECT matching none of the accepted shapes is
treated as an empty page, and the call succeeds with the documents collected
so far. -/
theorem c8_unmatched_object_eval :
    fetch_messages_once uShape (some 1) 10 = some (.ok [dJ1]) := rfl

/-- C8 (amended): only a payload that is neither an array nor an object is a
fatal parse error; an object matching none of the accepted shapes is instead
treated as an empty page, which stops paging and keeps the documents already
collected. -/
theorem c8_amended :
    (∀ j : JVal, jIsScalar j = true →
        normalizePage j = .error "Unexpected response shape from messages endpoint") ∧
      (∀ fields : List (String × JVal), objShapeAccepted fields = false →
        normalizePage (.jobj fields) = .ok ([], none)) ∧
      ∀ (u : Upstream) (chunk : Int) (s : LoopState) (fields : List (String × JVal)),
        retryPage u s.skip chunk retryAttempts = .gotData (.jobj fields) →
        objShapeAccepted fields = false →
        pageStep u chunk s = .stop s.allItems := by
  refine ⟨?_, ?_, ?_⟩
  · intro j hj
    cases j with
    | jstr s => rfl
    | jnum n => rfl
    | jbool b => rfl
    | jnull => rfl
    | jarr xs => simp [jIsScalar] at hj
    | jobj fs => simp [jIsScalar] at hj
  · exact fun fields h => normalizePage_unmatched h
  · intro u chunk s fields hret hsh
    simp only [pageStep, hret, afterData, normalizePage_unmatched hsh]
    simp

/-- Witness for the amended C8 theorem at concrete inputs: a numeric payload
is a fatal shape error, an object with a single non-container string field
normalizes to an empty page, and such a page stops the loop with the already
collected items. -/
theorem c8_amended_witness :
    normalizePage (.jnum 7) = .error "Unexpected response shape from messages endpoint" ∧
      normalizePage (.jobj [("foo", .jstr "bar")]) = .ok ([], none) ∧
      pageStep uShape 1 ⟨[dJ1], 1, some (some (.jobj [("items", .jarr [dJ1]), ("total", .jnum 3)]))⟩ =
        .stop [dJ1] :=
  ⟨c8_amended.1 (.jnum 7) rfl,
   c8_amended.2.1 [("foo", .jstr "bar")] rfl,
   c8_amended.2.2 uShape 1 _ [("foo", .jstr "bar")] rfl rfl⟩

/-- C2 counterexample: the claim says a rebuild never mutates the previously
observable store and index and a failed rebuild leaves them unchanged; but
`build_index` clears the live store and index first, so an iterable failing
before its first document leaves the observable store empty rather than equal
to the previous one. -/
theorem c2_interrupted_rebuild_observable :
    (buildIndexInterrupted (SearchEngine.build_index ⟨[], []⟩ [docA] "id") [] "id").docs = [] ∧
      (SearchEngine.build_index ⟨[], []⟩ [docA] "id").docs = [("a", docA)] :=
  ⟨rfl, rfl⟩

/-- C2 (amended): the completed rebuild is determined by the documents and id
field alone (the prior engine state never leaks into the result), and an
interrupted rebuild leaves exactly the cleared state rebuilt from the prefix
that was processed — not the previous snapshot. -/
theorem c2_amended :
    (∀ (e e2 : SearchEngine) (docs : List Doc) (f : String),
        SearchEngine.build_index e docs f = SearchEngine.build_index e2 docs f) ∧
      ∀ (e : SearchEngine) (pre : List Doc) (f : String),
        buildIndexInterrupted e pre f = buildSteps pre f :=
  ⟨fun _ _ _ _ => rfl, fun _ _ _ => rfl⟩

/-- C3 counterexample: the claim says every store key occurs in at least one
posting set; but a stored document with no string-valued fields (numeric id
only) contributes no tokens, so its key "1" is in the store while the index
is empty. -/
theorem c3_store_key_unindexed :
    (SearchEngine.build_index ⟨[], []⟩ [[("id", JVal.jnum 1)]] "id").index = [] ∧
      (SearchEngine.build_index ⟨[], []⟩ [[("id", JVal.jnum 1)]] "id").docs.map Prod.fst =
        ["1"] :=
  ⟨rfl, rfl⟩

/-- C3 (amended): the backward inclusion does hold after every build: every
identifier occurring in any posting set of the built index is a key of the
built document store. -/
theorem c3_amended : ∀ (docs : List Doc) (f t i : String) (ids : List String),
    (t, ids) ∈ (SearchEngine.build_index ⟨[], []⟩ docs f).index → i ∈ ids →
    i ∈ (SearchEngine.build_index ⟨[], []⟩ docs f).docs.map Prod.fst := by
  intro docs f t i ids hmem hid
  exact buildSteps_index_sub docs f (t, ids) hmem i hid

/-- Witness for the amended C3 theorem: in the demo engine the posting set of
token "hello" contains "1", which is a store key. -/
theorem c3_amended_witness :
    ("hello", ["1", "3"]) ∈ (SearchEngine.build_index ⟨[], []⟩ demoDocs "id").index ∧
      "1" ∈ (SearchEngine.build_index ⟨[], []⟩ demoDocs "id").docs.map Prod.fst := by
  have hidx : (SearchEngine.build_index ⟨[], []⟩ demoDocs "id").index =
      [("1", ["1"]), ("hello", ["1", "3"]), ("world", ["1", "2"]),
       ("2", ["2"]), ("goodbye", ["2"]), ("3", ["3"]), ("there", ["3"])] := rfl
  have hmem : ("hello", ["1", "3"]) ∈ (SearchEngine.build_index ⟨[], []⟩ demoDocs "id").index := by
    rw [hidx]
    exact List.mem_cons_of_mem _ (List.mem_cons_self _ _)
  exact ⟨hmem, c3_amended demoDocs "id" "hello" "1" ["1", "3"] hmem (by simp)⟩

/-- C7 counterexample: the claim says the empty-query total equals the number
of input documents with a resolvable id; but two documents resolving to the
same id collapse to one store entry, so the total is 1 while 2 documents had
resolvable ids. -/
theorem c7_duplicate_id_total :
    (SearchEngine.build_index ⟨[], []⟩ dupDocs "id").search "" 1 10 =
        .ok (1, [[("id", JVal.jstr "1"), ("x", JVal.jstr "y")]]) ∧
      (dupDocs.filterMap (resolveId "id")).length = 2 :=
  ⟨rfl, rfl⟩

/-- C7 (amended): after a build, the empty query returns all stored documents
in store iteration order, paginated, with total equal to the store size, and
the store size equals the number of DISTINCT resolved identifiers among the
input documents (duplicates collapse). -/
theorem c7_amended : ∀ (docs : List Doc) (f : String) (page psize : Nat),
    (SearchEngine.build_index ⟨[], []⟩ docs f).search "" page psize =
        .ok ((SearchEngine.build_index ⟨[], []⟩ docs f).docs.length,
          sliceL ((SearchEngine.build_index ⟨[], []⟩ docs f).docs.map Prod.snd) page psize) ∧
      (SearchEngine.build_index ⟨[], []⟩ docs f).docs.length =
        (docs.filterMap (resolveId f)).toFinset.card := by
  intro docs f page psize
  simp only [SearchEngine.build_index]
  constructor
  · have hn := buildSteps_nodup docs f
    have hall : ∀ i ∈ (buildSteps docs f).docs.map Prod.fst,
        (lookupA (buildSteps docs f).docs i).isSome :=
      fun i hi => lookupA_isSome_iff.mpr hi
    obtain ⟨hok, hmem, hslice⟩ := search_resolve_branch hall
    have hu : uuidMatch (pyStrip "") = false := rfl
    simp only [SearchEngine.search, hu, Bool.false_eq_true, if_false, if_pos rfl]
    rw [hslice page psize, map_lookupA_keys [] hn]
    simp [List.length_map]
  · exact buildSteps_docs_length docs f

/-- C4: an identifier-shaped (trimmed) query takes the exact-match path: the
result is the paginated list of documents whose `id` or `user_id` field,
rendered by `str`, exactly equals the trimmed query, with total equal to the
count of those exact matches; membership in that list is exactly exact-match
equality, so no document is reached through token overlap. -/
theorem c4_identifier_query : ∀ (e : SearchEngine) (query : String) (page psize : Nat),
    uuidMatch (pyStrip query) = true → C4Concl e query page psize := by
  intro e query page psize hu
  constructor
  · simp [SearchEngine.search, hu]
  · intro d
    constructor
    · intro hd
      obtain ⟨kv, hkv, hsnd⟩ := List.mem_map.mp hd
      obtain ⟨hm, hp⟩ := List.mem_filter.mp hkv
      obtain ⟨k, d0⟩ := kv
      subst hsnd
      refine ⟨k, hm, ?_⟩
      simpa [Bool.or_eq_true, beq_iff_eq] using hp
    · rintro ⟨cid, hm, hor⟩
      refine List.mem_map.mpr ⟨(cid, d), List.mem_filter.mpr ⟨hm, ?_⟩, rfl⟩
      simpa [Bool.or_eq_true, beq_iff_eq] using hor

/-- Witness for the C4 theorem: a concrete identifier-shaped query against the
engine holding a document with that id. -/
theorem c4_identifier_query_witness :
    uuidMatch (pyStrip "11111111-2222-3333-4444-555555555555") = true ∧
      C4Concl uuidEngine "11111111-2222-3333-4444-555555555555" 1 10 :=
  ⟨rfl, c4_identifier_query uuidEngine "11111111-2222-3333-4444-555555555555" 1 10 rfl⟩

/-- C5 counterexample: the claim quantifies over every query whose token list
is non-empty, but an identifier-shaped query tokenizes non-empty AND takes
the exact-match path: here the token union is ["x"] (so the claim predicts
total 1), yet search returns total 0 with no results. -/
theorem c5_identifier_bypass :
    beefEngine.search "deadbeef-0000-0000-0000-000000000000" 1 10 = .ok (0, []) ∧
      tokenize "deadbeef-0000-0000-0000-000000000000" ≠ [] ∧
      candidate_union beefEngine (tokenize "deadbeef-0000-0000-0000-000000000000") = ["x"] := by
  refine ⟨rfl, ?_, rfl⟩
  decide

/-- C5 (amended): for every query that is NOT identifier-shaped after
trimming and tokenizes to a non-empty list, the candidate set is the union of
the posting sets of the query tokens; exactly when that union is empty the
candidates are the documents whose lowercased string fields contain the
lowercased query as a substring; scores are bounded by the token count; the
scored candidates are sorted by score descending then id ascending; and a
returned total equals the candidate count before pagination. -/
theorem c5_general_query : ∀ (e : SearchEngine) (query : String),
    uuidMatch (pyStrip query) = false → tokenize query ≠ [] → C5Concl e query := by
  intro e query hu ht
  have hu2 : ¬ uuidMatch (pyStrip query) = true := by simp [hu]
  have htB : ¬ (tokenize query).isEmpty = true := by
    simp [List.isEmpty_iff, ht]
  have hqne : ¬ query = "" := by
    intro h
    apply ht
    rw [h]
    rfl
  refine ⟨?_, ?_, ?_, ?_, ?_, ?_, ?_⟩
  · exact fun cid => mem_candidate_union e (tokenize query) cid
  · intro hne
    simp only [candidatesOf]
    rw [if_neg (by simp [List.isEmpty_iff, hne])]
  · intro hemp cid
    simp only [candidatesOf]
    rw [if_pos (by simp [hemp])]
    exact mem_fallback_candidates e query cid
  · intro cid
    exact List.length_filter_le _ _
  · exact List.sorted_insertionSort rankLE (scoredOf e query)
  · exact orderedIds_perm e query
  · intro p s n rs hres
    simp only [SearchEngine.search] at hres
    rw [if_neg hu2, if_neg hqne, if_neg htB] at hres
    cases hrd : resolveDocs e (sliceL (orderedIdsOf e query) p s) with
    | error m =>
      rw [hrd] at hres
      simp at hres
    | ok rs2 =>
      rw [hrd] at hres
      simp only [Except.ok.injEq, Prod.mk.injEq] at hres
      rw [← hres.1]
      exact (orderedIds_perm e query).length_eq

/-- Witness for the amended C5 theorem: the demo engine and the query
"hello". -/
theorem c5_general_query_witness :
    uuidMatch (pyStrip "hello") = false ∧ tokenize "hello" ≠ [] ∧
      C5Concl demoEngine "hello" :=
  ⟨rfl, by decide, c5_general_query demoEngine "hello" rfl (by decide)⟩

/-- C6: for a well-formed snapshot and any query and page size, there is one
fixed ranked document sequence such that every page is its arithmetic slice,
and concatenating the pages 1, 2, ... tiles the whole sequence with no gaps
and no duplicates. -/
theorem c6_pagination : ∀ (e : SearchEngine) (query : String) (psize : Nat),
    engineWF e = true → 1 ≤ psize → C6Concl e query psize := by
  intro e query psize hwf hs
  obtain ⟨L, hrd, _, hsearch⟩ := searchOk e query hwf
  refine ⟨L, hrd, fun p => hsearch p psize, ?_⟩
  have hslice_eq : (fun i => sliceL L (i + 1) psize) =
      fun i => (L.drop (i * psize)).take psize := by
    funext i
    simp [sliceL]
  rw [hslice_eq]
  exact flatMap_take_drop _ L psize (le_ceil_mul L.length psize hs)

/-- Witness for the C6 theorem: the demo engine, query "hello", page size 2. -/
theorem c6_pagination_witness :
    engineWF demoEngine = true ∧ 1 ≤ 2 ∧ C6Concl demoEngine "hello" 2 :=
  ⟨rfl, by omega, c6_pagination demoEngine "hello" 2 rfl (by omega)⟩

/-- C10: on an engine built by build_index, every search with page ≥ 1 and
page_size ≥ 1 returns normally with at most page_size documents, all drawn
from the document store, and a total at least the number returned. -/
theorem c10_search_safety : ∀ (docs : List Doc) (f query : String) (page psize : Nat),
    1 ≤ page → 1 ≤ psize → C10Concl docs f query page psize := by
  intro docs f query page psize hp hs
  obtain ⟨L, _, hmem, hsearch⟩ :=
    searchOk (buildSteps docs f) query (engineWF_buildSteps docs f)
  refine ⟨L.length, sliceL L page psize, hsearch page psize,
    sliceL_length_le L page psize, sliceL_length_le_len L page psize, ?_⟩
  intro d hd
  exact hmem d (sliceL_subset L page psize d hd)

/-- Witness for the C10 theorem: the demo corpus with query "hello". -/
theorem c10_search_safety_witness :
    1 ≤ 1 ∧ 1 ≤ 10 ∧ C10Concl demoDocs "id" "hello" 1 10 :=
  ⟨le_refl 1, by omega, c10_search_safety demoDocs "id" "hello" 1 10 (le_refl 1) (by omega)⟩
